import Mathlib

/-!
Verification of the `canvas-renderer` drawing engine: a shallow embedding of
its two modules (`src/TextGraphics/index.ts`, the full preset, and the
minimal `rectangle` preset) together with theorems checking the
natural-language specification against the code.

Conventions of the embedding:
* JS numbers are modelled as `ℚ` (all arithmetic in the claims is exact).
* A JS string is a `Str := List ℕ` of UTF-16 code units (`charCodeAt`
  values); `for (const char of s)` iterates these units (BMP assumption)
  and `.length` is the list length.
* Angles of canvas `arc` calls are recorded as rational multiples of π
  (`PI ↦ 1`, `PI * 1.5 ↦ 3/2`, …); every `arc` in the source is clockwise
  (`anticlockwise = false`), so the flag is omitted.
* A render produces a trace of drawing-context operations (`CtxOp`);
  surfaces are compared by comparing traces.
* Image loading is a parameter `loadImg : String → Except ε Img`; the JS
  promise rejection of `loadImage` is the `.error` case and `await`
  propagation is `Except` bind.
-/

/-- A JS string as its list of UTF-16 code units. -/
abbrev Str := List ℕ

/-- Width factor of one character, from `get_char_width`:
`char.charCodeAt(0) < 128 && char.charCodeAt(0) >= 0 ? 0.5 : 1`
(the `>= 0` conjunct is vacuous for `ℕ` code units). -/
def get_char_width (c : ℕ) : ℚ :=
  if c < 128 then 1/2 else 1

/-- `get_string_width` of the full preset: accumulates the per-character
factor over the string (`width += … ? 0.5 : 1`). -/
def get_string_width (s : Str) : ℚ :=
  s.foldl (fun w c => w + (if c < 128 then 1/2 else 1)) 0

/-- `get_string_width` of the minimal preset (`rectangle` module): the
source adds `1` for every character (`… ? 1 : 1`). -/
def rect_get_string_width (s : Str) : ℚ :=
  s.foldl (fun w c => w + (if c < 128 then 1 else 1)) 0

/-- `type TextAlign = 'left' | 'center' | 'right'`. -/
inductive TextAlign
  | left
  | center
  | right
deriving DecidableEq, Repr

/-- `type Padding = number | [number, number] | [number, number, number, number]`. -/
inductive Padding
  | num (n : ℚ)
  | two (a b : ℚ)
  | four (t r b l : ℚ)
deriving DecidableEq, Repr

/-- `type Radius = number | [number, number, number, number]`. -/
inductive Radius
  | num (n : ℚ)
  | arr (lt rt rb lb : ℚ)
deriving DecidableEq, Repr

/-- Radius normalisation shared by `drawCtx` and `drawBorder`:
an array destructures to `[lt, rt, rb, lb]`, a scalar expands to all four. -/
def normRadius : Radius → ℚ × ℚ × ℚ × ℚ
  | .arr lt rt rb lb => (lt, rt, rb, lb)
  | .num r => (r, r, r, r)

/-- A canvas path command; coordinates in `ℚ`, arc angles as multiples of π. -/
inductive PathCmd
  | moveTo (x y : ℚ)
  | lineTo (x y : ℚ)
  | arc (cx cy r a1 a2 : ℚ)
deriving DecidableEq, Repr

/-- The outline the background pass (`drawCtx`, full preset) builds on the
context before `ctx.clip()`: each corner tests its own radius for
truthiness; a non-zero radius emits the corner arc (preceded, except at the
first corner, by the `lineTo` of the incoming edge), a zero radius emits a
plain `moveTo`/`lineTo`. -/
def drawCtxPath (width height : ℚ) (radius : Radius) : List PathCmd :=
  let (lt, rt, rb, lb) := normRadius radius
  (if lt ≠ 0 then [.arc lt lt lt 1 (3/2)] else [.moveTo 0 0]) ++
  (if rt ≠ 0 then [.lineTo (width - rt) 0, .arc (width - rt) rt rt (3/2) 0]
   else [.lineTo width 0]) ++
  (if rb ≠ 0 then [.lineTo width (height - rb), .arc (width - rb) (height - rb) rb 0 (1/2)]
   else [.lineTo width height]) ++
  (if lb ≠ 0 then [.lineTo lb height, .arc lb (height - lb) lb (1/2) 1]
   else [.lineTo 0 height])

/-- The `Path2D` the border pass (`drawBorder`) builds, transcribed
command-for-command from the source: note that the arc at the top-right
corner is given radius `lt`, the bottom-right arc radius `lb`, the
bottom-left arc radius `rt` and the top-left arc radius `rb`, and that
zero radii still emit arc commands. -/
def drawBorderPath (width height : ℚ) (radius : Radius) : List PathCmd :=
  let (lt, rt, rb, lb) := normRadius radius
  [.moveTo lt 0,
   .lineTo (width - lt) 0,
   .arc (width - lt) lt lt (3/2) 0,
   .lineTo width (height - lb),
   .arc (width - lb) (height - lb) lb 0 (1/2),
   .lineTo rt height,
   .arc rt (height - rt) rt (1/2) 1,
   .lineTo 0 rb,
   .arc rb rb rb 1 (3/2)]

/-- `interface FontStyle` (full preset); absent optional fields are `none`. -/
structure FontStyle where
  style : Option String := none
  variant : Option String := none
  weight : Option String := none
  size : Option ℚ := none
  lineHeight : Option ℚ := none
  family : Option String := none
  color : Option String := none
  padding : Option Padding := none
  rowGap : Option ℚ := none
  textAlign : Option TextAlign := none
  letterSpacing : Option ℚ := none
  borderColor : Option String := none
  borderWidth : Option ℚ := none
deriving DecidableEq, Repr

/-- `interface BorderStyle`. -/
structure BorderStyle where
  color : Option String := none
  width : Option ℚ := none
  radius : Option Radius := none
deriving DecidableEq, Repr

/-- `color?: string | LinearGradient` — a gradient is the insertion-ordered
list of `(position, color)` entries of the object literal. -/
inductive BgColor
  | solid (c : String)
  | gradient (m : List (ℚ × String))
deriving DecidableEq, Repr

/-- `size?: [string, string] | string`. -/
inductive BgSize
  | one (s : String)
  | two (w h : String)
deriving DecidableEq, Repr

/-- `position?: [number, number] | number`. -/
inductive BgPos
  | one (p : ℚ)
  | two (x y : ℚ)
deriving DecidableEq, Repr

/-- `interface BackgroundStyle`. -/
structure BackgroundStyle where
  color : Option BgColor := none
  image : Option String := none
  size : Option BgSize := none
  position : Option BgPos := none
deriving DecidableEq, Repr

/-- `content?: string | string[]`. -/
inductive ContentV
  | str (s : Str)
  | arr (l : List Str)
deriving DecidableEq, Repr

/-- `number | 'auto'` (used for the requested width/height). -/
inductive AutoOr (α : Type)
  | auto
  | val (v : α)
deriving DecidableEq, Repr

/-- `interface TextGraphicsOptions`; `width`/`height` default to `'auto'`
when absent, so absence is collapsed into `.auto`. -/
structure TextGraphicsOptions where
  content : Option ContentV := none
  borderStyle : BorderStyle := {}
  backgroundStyle : BackgroundStyle := {}
  fontStyle : FontStyle := {}
  width : AutoOr ℚ := .auto
  height : AutoOr ℚ := .auto
deriving DecidableEq, Repr

/-- JS truthiness of an optional string (`undefined` and `""` are falsy). -/
def strTruthy : Option String → Bool
  | none => false
  | some s => s ≠ ""

/-- JS truthiness of `backgroundStyle.color` (`string | LinearGradient`):
`undefined` and `""` are falsy, any object — even an empty map — is truthy. -/
def bgColorTruthy : Option BgColor → Bool
  | none => false
  | some (.solid c) => c ≠ ""
  | some (.gradient _) => true

/-- A decoded image with its natural dimensions (`loadImage` result). -/
structure Img where
  width : ℚ
  height : ℚ
deriving DecidableEq, Repr

/-- An operation performed on the 2D drawing context (or recorded into a
`Path2D` that is then stroked).  The rendered surface is identified with
the trace of these operations. -/
inductive CtxOp
  | path (c : PathCmd)
  | clip
  | setFillColor (c : String)
  | setFillGradient (x0 y0 x1 y1 : ℚ) (stops : List (ℚ × String))
  | fillRect (x y w h : ℚ)
  | drawImage (src : String) (x y : ℚ) (w h : Option ℚ)
  | setLineWidth (w : ℚ)
  | setStrokeColor (c : String)
  | strokePath (p : List PathCmd)
  | setFont (style variant weight : String) (size lineHeight : ℚ) (family : String)
  | setTextAlignStr (a : String)
  | setTextBaselineStr (b : String)
  | fillText (ch : ℕ) (x y : ℚ)
  | strokeText (ch : ℕ) (x y : ℚ)
deriving DecidableEq, Repr

/-- Is a gradient-map key enumerated as a JS array index (a non-negative
integer, whose canonical string is listed before all other keys)? -/
def isArrayIndexKey (k : ℚ) : Bool :=
  match k.num with
  | .ofNat _ => k.den == 1
  | .negSucc _ => false

/-- Ordering of gradient-map entries by their numeric key. -/
def keyLE (a b : ℚ × String) : Prop :=
  a.1 ≤ b.1

instance : DecidableRel keyLE :=
  fun a b => inferInstanceAs (Decidable (a.1 ≤ b.1))

instance : IsTotal (ℚ × String) keyLE :=
  ⟨fun a b => le_total a.1 b.1⟩

instance : IsTrans (ℚ × String) keyLE :=
  ⟨fun _ _ _ h1 h2 => le_trans h1 h2⟩

/-- `Object.keys` enumeration order of a numeric-keyed object literal:
array-index keys in ascending numeric order first, then the remaining
(non-integer) keys in insertion order. -/
def jsEnumOrder (m : List (ℚ × String)) : List (ℚ × String) :=
  (m.filter (fun p => isArrayIndexKey p.1)).insertionSort keyLE ++
  m.filter (fun p => ! isArrayIndexKey p.1)

/-- The gradient stops `drawCtx` adds: one `addColorStop(+key, color)` per
key of the map, in `Object.keys` enumeration order. -/
def gradStops (m : List (ℚ × String)) : List (ℚ × String) :=
  jsEnumOrder m

/-- Numeric value of a decimal digit character. -/
def digitVal (c : Char) : ℕ :=
  c.toNat - '0'.toNat

/-- Value of a digit list read as a base-10 natural. -/
def digitsToNat (cs : List Char) : ℕ :=
  cs.foldl (fun n c => n * 10 + digitVal c) 0

/-- JS `Number(string)` coercion (`+s`), modelled for the plain unsigned or
signed decimal literals this code path receives (background size values):
`""` coerces to `0`, a decimal literal to its value, anything else — e.g. a
string still containing `%` — to `NaN`, encoded as `none`. -/
def jsToNum (s : String) : Option ℚ :=
  match s.toList with
  | [] => some 0
  | cs =>
    let (sign, body) : ℚ × List Char :=
      match cs with
      | '-' :: r => (-1, r)
      | '+' :: r => (1, r)
      | r => (1, r)
    let ip := body.takeWhile Char.isDigit
    match body.drop ip.length with
    | [] => if ip = [] then none else some (sign * digitsToNat ip)
    | '.' :: fp =>
      if fp.all Char.isDigit ∧ (ip ≠ [] ∨ fp ≠ []) then
        some (sign * (digitsToNat ip + (digitsToNat fp : ℚ) / 10 ^ fp.length))
      else none
    | _ => none

/-- One axis of the background-image size resolution in `drawCtx`:
`if (!isNaN(+sz)) dim = +sz; else dim = (+sz.replace('%','')) * dim / 100`
(`none` = `NaN`). -/
def resolveImgAxis (sz : String) (natural : ℚ) : Option ℚ :=
  match jsToNum sz with
  | some n => some n
  | none => (jsToNum (sz.replace "%" "")).map (fun p => p * natural / 100)

/-- The `drawImage` call at the end of `drawCtx`: destination offset from
`backgroundPosition` (scalar expands to both axes; `0` is falsy and leaves
the default `[0,0]`, which coincides), size from `backgroundSize` when
truthy, else the image's natural size. -/
def drawImageOp (bg : BackgroundStyle) (src : String) (img : Img) : CtxOp :=
  let (x, y) : ℚ × ℚ :=
    match bg.position with
    | some (.two a b) => (a, b)
    | some (.one p) => if p ≠ 0 then (p, p) else (0, 0)
    | none => (0, 0)
  let sizeTruthy : Bool :=
    match bg.size with
    | none => false
    | some (.one s) => s ≠ ""
    | some (.two _ _) => true
  if sizeTruthy then
    let (ws, hs) : String × String :=
      match bg.size with
      | some (.two a b) => (a, b)
      | some (.one s) => (s, s)
      | none => ("", "")
    .drawImage src x y (resolveImgAxis ws img.width) (resolveImgAxis hs img.height)
  else
    .drawImage src x y (some img.width) (some img.height)

/-- The fill-style/fill operations of `drawCtx` when the background color is
truthy: a string sets a solid fill, a map builds a linear gradient from
`(0,0)` to `(width,height)` with one stop per key, then `fillRect` paints. -/
def bgFillOps (width height : ℚ) : BgColor → List CtxOp
  | .solid c => [.setFillColor c, .fillRect 0 0 width height]
  | .gradient m => [.setFillGradient 0 0 width height (gradStops m), .fillRect 0 0 width height]

/-- The trace of the background pass `drawCtx` (full preset): returns no
operations when neither color nor image is truthy; otherwise builds the
rounded outline, clips to it, fills with the color (if truthy) and finally
awaits and draws the image (if truthy) — a failed `loadImage` rejects the
whole pass. -/
def drawCtxOps {ε : Type} (loadImg : String → Except ε Img) (width height : ℚ)
    (radius : Radius) (bg : BackgroundStyle) : Except ε (List CtxOp) :=
  if ¬ bgColorTruthy bg.color ∧ ¬ strTruthy bg.image then .ok []
  else
    let pathOps := (drawCtxPath width height radius).map CtxOp.path ++ [CtxOp.clip]
    let fillOps :=
      match bg.color with
      | some c => if bgColorTruthy (some c) then bgFillOps width height c else []
      | none => []
    match bg.image with
    | some src =>
      if src ≠ "" then
        match loadImg src with
        | .error e => .error e
        | .ok img => .ok (pathOps ++ fillOps ++ [drawImageOp bg src img])
      else .ok (pathOps ++ fillOps)
    | none => .ok (pathOps ++ fillOps)

/-- The trace of the border pass `drawBorder`: with a falsy width (default
`0`) or a falsy color it returns before touching the context; otherwise it
sets the line width and stroke color and strokes the `Path2D`. -/
def drawBorderOps (width height : ℚ) (bs : BorderStyle) : List CtxOp :=
  let borderWidth := bs.width.getD 0
  let borderRadius := bs.radius.getD (.num 0)
  if borderWidth = 0 ∨ ¬ strTruthy bs.color then []
  else
    [.setLineWidth borderWidth,
     .setStrokeColor (bs.color.getD ""),
     .strokePath (drawBorderPath width height borderRadius)]

/-- The `reduce((prev, curr) => prevLength > currLength ? prev : curr)` that
picks a widest line (empty input never occurs in the source; it is mapped to
`[]` here to keep the function total). -/
def maxBy (f : Str → ℚ) : List Str → Str
  | [] => []
  | x :: xs => xs.foldl (fun prev curr => if f prev > f curr then prev else curr) x

/-- Pixel width of one line as `drawText` computes it:
`get_string_width(t) * fontSize + (t.length - 1) * letterSpacing`. -/
def lineWidth (t : Str) (fontSize letterSpacing : ℚ) : ℚ :=
  get_string_width t * fontSize + ((t.length : ℚ) - 1) * letterSpacing

/-- `_calculateLeft`: starts at `0`, adds `(max - len) / 2` for `'center'`
and `max - len` for `'right'`. -/
def calculateLeft (maxTextLength textLenth : ℚ) (textAlign : TextAlign) : ℚ :=
  let l : ℚ := 0
  let l := if textAlign = .center then l + (maxTextLength - textLenth) / 2 else l
  if textAlign = .right then l + (maxTextLength - textLenth) else l

/-- `drawRowText`: fills each character at the running cursor, strokes it
when the text border width is truthy, and advances the cursor by
`fontSize * get_char_width(char) + letterSpacing`. -/
def drawRowText (text : Str) (left top fontSize borderWidth letterSpacing : ℚ) : List CtxOp :=
  match text with
  | [] => []
  | c :: rest =>
    CtxOp.fillText c left top ::
    ((if borderWidth ≠ 0 then [CtxOp.strokeText c left top] else []) ++
     drawRowText rest (left + fontSize * get_char_width c + letterSpacing) top fontSize
       borderWidth letterSpacing)

/-- The `text.forEach((_text, idx) => …)` loop of `drawText`: per line,
offset by `_calculateLeft`, baseline at `top + fontSize * idx + rowGap * idx`,
then paint the row. -/
def drawLinesOps (maxTextLength fontSize borderWidth letterSpacing left top rowGap : ℚ)
    (textAlign : TextAlign) : ℕ → List Str → List CtxOp
  | _, [] => []
  | idx, t :: rest =>
    let textLenth := lineWidth t fontSize letterSpacing
    let textLeft := left + calculateLeft maxTextLength textLenth textAlign
    let textTop := top + fontSize * idx + rowGap * idx
    drawRowText t textLeft textTop fontSize borderWidth letterSpacing ++
    drawLinesOps maxTextLength fontSize borderWidth letterSpacing left top rowGap textAlign
      (idx + 1) rest

/-- The trace of `drawText` (full preset): context setup (font string from
the style components, fill color, `textAlign = 'left'`, `textBaseline =
'middle'`, stroke color, line width), the fallback widest-line measurement,
the `maxTextLength` truthiness override, `top += fontSize / 2`, then the
per-line loop. -/
def drawTextOps (text : List Str) (maxTextLength : Option ℚ) (fs : FontStyle)
    (top left rowGap : ℚ) : List CtxOp :=
  let color := fs.color.getD "#000"
  let textAlign := fs.textAlign.getD .left
  let fontStyle := fs.style.getD "normal"
  let fontVariant := fs.variant.getD "normal"
  let fontWeight := fs.weight.getD "normal"
  let fontSize := fs.size.getD 12
  let lineHeight := fs.lineHeight.getD 1
  let fontFamily := fs.family.getD "微软雅黑"
  let borderColor := fs.borderColor.getD "#000"
  let borderWidth := fs.borderWidth.getD 0
  let letterSpacing := fs.letterSpacing.getD 0
  let setup : List CtxOp :=
    [.setFont fontStyle fontVariant fontWeight fontSize lineHeight fontFamily,
     .setFillColor color,
     .setTextAlignStr "left",
     .setTextBaselineStr "middle",
     .setStrokeColor borderColor,
     .setLineWidth borderWidth]
  let computed : ℚ :=
    if text ≠ [] then lineWidth (maxBy get_string_width text) fontSize letterSpacing else 0
  let mtl : ℚ :=
    match maxTextLength with
    | some v => if v ≠ 0 then v else computed
    | none => computed
  setup ++ drawLinesOps mtl fontSize borderWidth letterSpacing left (top + fontSize / 2)
    rowGap textAlign 0 text

/-- The four normalised padding components `[_top, _right, _bottom, _left]`
of `TextGraphics`/`rectangle`. -/
structure PaddingBox where
  top : ℚ
  right : ℚ
  bottom : ℚ
  left : ℚ
deriving DecidableEq, Repr

/-- Padding normalisation plus border-width inflation at the head of
`TextGraphics`: a scalar expands to all four sides, a 2-array destructures
as `[_top, _left] = padding; [_bottom, _right] = padding`, a 4-array as
`[_top, _right, _bottom, _left]`; a truthy border width is then added once
to each of the four components. -/
def resolvePadding (padding : Padding) (borderWidth : ℚ) : PaddingBox :=
  let p : PaddingBox :=
    match padding with
    | .num n => ⟨n, n, n, n⟩
    | .two a b => ⟨a, b, a, b⟩
    | .four t r b l => ⟨t, r, b, l⟩
  if borderWidth ≠ 0 then
    ⟨p.top + borderWidth, p.right + borderWidth, p.bottom + borderWidth, p.left + borderWidth⟩
  else p

/-- `content ? (Array.isArray(content) ? deepCopy(content) : [content]) : []`
(an empty string is falsy and yields no lines), followed by
`.filter(Boolean)` which drops empty lines. -/
def contentLines (content : Option ContentV) : List Str :=
  let raw : List Str :=
    match content with
    | none => []
    | some (.str s) => if s = [] then [] else [s]
    | some (.arr l) => l
  raw.filter (fun s => s ≠ [])

/-- Auto-size resolution at the head of `TextGraphics`: `width`/`height`
start at the numeric request (or `0`), and when there is at least one
(non-empty) line and an axis is `'auto'`, that axis is computed — width from
the widest line, height from the row count with the parity-dependent `2`/`4`
subtraction. -/
def resolveSize (o : TextGraphicsOptions) : ℚ × ℚ :=
  let borderWidth := o.borderStyle.width.getD 0
  let fontSize := o.fontStyle.size.getD 12
  let padding := o.fontStyle.padding.getD (.num 0)
  let rowGap := o.fontStyle.rowGap.getD 0
  let letterSpacing := o.fontStyle.letterSpacing.getD 0
  let pad := resolvePadding padding borderWidth
  let w0 : ℚ := match o.width with | .val w => w | .auto => 0
  let h0 : ℚ := match o.height with | .val h => h | .auto => 0
  let lines := contentLines o.content
  if lines ≠ [] ∧ (o.width = .auto ∨ o.height = .auto) then
    let w :=
      if o.width = .auto then
        let m := maxBy get_string_width lines
        get_string_width m * fontSize + (pad.left + pad.right) + ((m.length : ℚ) - 1) * letterSpacing
      else w0
    let h :=
      if o.height = .auto then
        ((lines.length : ℚ)) * fontSize + (pad.top + pad.bottom) +
          ((lines.length : ℚ) - 1) * rowGap -
          (if lines.length % 2 = 0 then 2 else 4)
      else h0
    (w, h)
  else (w0, h0)

/-- The full-preset render `TextGraphics`: resolve the size, and when both
dimensions are truthy run `drawCtx` (awaiting the image), `drawBorder` and
`drawText` in that order; otherwise return the empty `width × height`
surface untouched.  The result is `(width, height, trace)`, or the image
loader's error. -/
def renderTextGraphics {ε : Type} (loadImg : String → Except ε Img)
    (o : TextGraphicsOptions) : Except ε (ℚ × ℚ × List CtxOp) :=
  let borderWidth := o.borderStyle.width.getD 0
  let borderRadius := o.borderStyle.radius.getD (.num 0)
  let padding := o.fontStyle.padding.getD (.num 0)
  let rowGap := o.fontStyle.rowGap.getD 0
  let pad := resolvePadding padding borderWidth
  let lines := contentLines o.content
  let width := (resolveSize o).1
  let height := (resolveSize o).2
  if width ≠ 0 ∧ height ≠ 0 then
    match drawCtxOps loadImg width height borderRadius o.backgroundStyle with
    | .error e => .error e
    | .ok bgOps =>
      .ok (width, height,
        bgOps ++ drawBorderOps width height o.borderStyle ++
        drawTextOps lines (some (width - (pad.left + pad.right))) o.fontStyle pad.top pad.left
          rowGap)
  else .ok (width, height, [])

/-- JS `Array.prototype.sort` with comparator `(a, b) => b.length - a.length`:
a stable sort by descending `.length`. -/
def jsSortLenDesc (l : List Str) : List Str :=
  l.insertionSort (fun a b => b.length ≤ a.length)

/-- The caller's `content` value as it stands after `rectangle` (minimal
preset) returns: inside the `canvasWidth === 'auto'` branch the source runs
`content.sort((a, b) => b.length - a.length)`, mutating the caller's array
in place; every other access (`filter`, reads) is non-mutating. -/
def rectangleContentAfter (content : Option ContentV) (canvasWidth canvasHeight : AutoOr ℚ) :
    Option ContentV :=
  let truthy : Bool :=
    match content with
    | none => false
    | some (.str s) => s ≠ []
    | some (.arr _) => true
  if truthy ∧ (canvasWidth = .auto ∨ canvasHeight = .auto) then
    if canvasWidth = .auto then
      match content with
      | some (.arr l) => some (.arr (jsSortLenDesc l))
      | c => c
    else content
  else content

/-- The caller's `content` value after `TextGraphics` (full preset) returns:
the source only ever reads it — `deepCopy` before the widest-line `reduce`,
and `filter`/`reduce` themselves allocate fresh arrays — so it is returned
unchanged. -/
def textGraphicsContentAfter (content : Option ContentV)
    (_canvasWidth _canvasHeight : AutoOr ℚ) : Option ContentV :=
  content

/-- The border pass of the minimal preset (`rectangle` module's
`drawBorder`): unlike the full preset it has no skip guard — it always
builds the `Path2D`, sets the line width (even `0`) and the stroke color
(default `'#fff'`) and strokes. -/
def rect_drawBorderOps (width height : ℚ) (bs : BorderStyle) : List CtxOp :=
  [.setLineWidth (bs.width.getD 0),
   .setStrokeColor (bs.color.getD "#fff"),
   .strokePath (drawBorderPath width height (bs.radius.getD (.num 0)))]

deriving instance DecidableEq for Except

/-! ## Helper lemmas -/

theorem foldl_add_factor (f : ℕ → ℚ) (s : List ℕ) (a : ℚ) :
    s.foldl (fun w c => w + f c) a = a + (s.map f).sum := by
  induction s generalizing a with
  | nil => simp
  | cons c cs ih => simp only [List.foldl_cons, List.map_cons, List.sum_cons, ih]; ring

theorem get_string_width_eq_sum (s : Str) :
    get_string_width s = (s.map get_char_width).sum := by
  have h : get_string_width s = s.foldl (fun w c => w + get_char_width c) 0 := rfl
  rw [h, foldl_add_factor]
  simp

theorem foldl_pick_choice (f : Str → ℚ) :
    ∀ (xs : List Str) (x : Str),
      xs.foldl (fun p c => if f p > f c then p else c) x = x ∨
      xs.foldl (fun p c => if f p > f c then p else c) x ∈ xs := by
  intro xs
  induction xs with
  | nil => intro x; exact .inl rfl
  | cons y ys ih =>
    intro x
    rcases ih (if f x > f y then x else y) with h | h
    · rw [List.foldl_cons, h]
      by_cases hxy : f x > f y
      · simp [hxy]
      · simp [hxy]
    · exact .inr (List.mem_cons_of_mem _ (by rwa [List.foldl_cons]))

theorem le_foldl_pick (f : Str → ℚ) :
    ∀ (xs : List Str) (x : Str),
      f x ≤ f (xs.foldl (fun p c => if f p > f c then p else c) x) ∧
      ∀ y ∈ xs, f y ≤ f (xs.foldl (fun p c => if f p > f c then p else c) x) := by
  intro xs
  induction xs with
  | nil => exact fun x => ⟨le_refl _, by simp⟩
  | cons y ys ih =>
    intro x
    obtain ⟨h1, h2⟩ := ih (if f x > f y then x else y)
    have hx : f x ≤ f (if f x > f y then x else y) := by
      by_cases hxy : f x > f y
      · simp [hxy]
      · simp only [hxy, if_false]
        exact le_of_not_gt hxy
    have hy : f y ≤ f (if f x > f y then x else y) := by
      by_cases hxy : f x > f y
      · simp only [hxy, if_true]
        exact le_of_lt hxy
      · simp [hxy]
    refine ⟨le_trans hx (by rwa [List.foldl_cons]), fun z hz => ?_⟩
    rcases List.mem_cons.mp hz with rfl | hz
    · exact le_trans hy (by rwa [List.foldl_cons])
    · rw [List.foldl_cons]
      exact h2 z hz

theorem maxBy_mem (f : Str → ℚ) (l : List Str) (h : l ≠ []) : maxBy f l ∈ l := by
  match l with
  | [] => exact absurd rfl h
  | x :: xs =>
    rcases foldl_pick_choice f xs x with h1 | h1
    · rw [maxBy, h1]; exact List.mem_cons_self _ _
    · exact List.mem_cons_of_mem _ (by rw [maxBy]; exact h1)

theorem le_maxBy (f : Str → ℚ) (l : List Str) (y : Str) (hy : y ∈ l) :
    f y ≤ f (maxBy f l) := by
  match l with
  | [] => cases hy
  | x :: xs =>
    obtain ⟨h1, h2⟩ := le_foldl_pick f xs x
    rcases List.mem_cons.mp hy with rfl | hy
    · exact h1
    · exact h2 y hy

theorem sum_map_const_factor (s : Str) (k : ℚ) (h : ∀ c ∈ s, get_char_width c = k) :
    (s.map get_char_width).sum = (s.length : ℚ) * k := by
  induction s with
  | nil => simp
  | cons c cs ih =>
    simp only [List.map_cons, List.sum_cons, List.length_cons]
    rw [h c (by simp), ih (fun d hd => h d (by simp [hd]))]
    push_cast
    ring

theorem rect_get_string_width_eq_length (s : Str) :
    rect_get_string_width s = (s.length : ℚ) := by
  have h : rect_get_string_width s = s.foldl (fun w c => w + (fun _ : ℕ => (1 : ℚ)) c) 0 := by
    unfold rect_get_string_width
    simp
  rw [h, foldl_add_factor]
  simp [List.map_const, List.sum_replicate, nsmul_eq_mul]

/-! ## Claim theorems -/

/-- Claim C4, amended: the full preset's `get_string_width` gives each
ASCII character (code point below 128) factor `0.5` and every other
character factor `1`, summing per character: an all-ASCII string measures
`0.5 * length`, an all-wide string measures `1.0 * length`, and a mixed
string sums `get_char_width` over its characters.  The minimal preset's
`get_string_width` instead adds `1` for every character, so there it is
the all-wide clause alone that holds and every string measures its
length. -/
theorem C4_string_width (s : Str) :
    ((∀ c ∈ s, c < 128) → get_string_width s = (s.length : ℚ) * (1/2)) ∧
    ((∀ c ∈ s, ¬ c < 128) → get_string_width s = (s.length : ℚ) * 1) ∧
    get_string_width s = (s.map get_char_width).sum ∧
    rect_get_string_width s = (s.length : ℚ) * 1 := by
  refine ⟨fun h => ?_, fun h => ?_, get_string_width_eq_sum s,
    by rw [rect_get_string_width_eq_length]; ring⟩
  · rw [get_string_width_eq_sum]
    exact sum_map_const_factor s _ (fun c hc => by simp [get_char_width, h c hc])
  · rw [get_string_width_eq_sum]
    exact sum_map_const_factor s _ (fun c hc => by simp [get_char_width, h c hc])

/-- Counterexample for C4 as stated: in the minimal preset the all-ASCII
string `"A"` measures `1`, not `0.5 * 1`. -/
theorem C4_counterexample :
    rect_get_string_width [65] = 1 ∧
    rect_get_string_width [65] ≠ (([65] : Str).length : ℚ) * (1/2) := by
  constructor
  · norm_num [rect_get_string_width]
  · norm_num [rect_get_string_width]

/-- Witness for C4 at the concrete strings `"Hi"` (`[72, 105]`, all ASCII)
and `"文字"` (`[25991, 23383]`, all wide). -/
theorem C4_string_width_witness :
    ((∀ c ∈ ([72, 105] : Str), c < 128) ∧
      get_string_width [72, 105] = (([72, 105] : Str).length : ℚ) * (1/2)) ∧
    ((∀ c ∈ ([25991, 23383] : Str), ¬ c < 128) ∧
      get_string_width [25991, 23383] = (([25991, 23383] : Str).length : ℚ) * 1) :=
  ⟨⟨by decide, (C4_string_width [72, 105]).1 (by decide)⟩,
   ⟨by decide, (C4_string_width [25991, 23383]).2.1 (by decide)⟩⟩

/-- Claim C6: per-line horizontal offset by alignment — `0` for left,
`(available - lineWidth) / 2` for center, `available - lineWidth` for
right, with `lineWidth = stringWidth * fontSize + letterSpacing*(len-1)`;
hence every right-aligned line's right edge lands at `available`. -/
theorem C6_alignment_offsets (available fontSize letterSpacing : ℚ) (t : Str) :
    calculateLeft available (lineWidth t fontSize letterSpacing) .left = 0 ∧
    calculateLeft available (lineWidth t fontSize letterSpacing) .center =
      (available - lineWidth t fontSize letterSpacing) / 2 ∧
    calculateLeft available (lineWidth t fontSize letterSpacing) .right =
      available - lineWidth t fontSize letterSpacing ∧
    calculateLeft available (lineWidth t fontSize letterSpacing) .right +
      lineWidth t fontSize letterSpacing = available ∧
    lineWidth t fontSize letterSpacing =
      get_string_width t * fontSize + ((t.length : ℚ) - 1) * letterSpacing := by
  refine ⟨?_, ?_, ?_, ?_, rfl⟩ <;> simp [calculateLeft]

/-- Claim C1 (settled against the code): at width `100`, height `50` and
radii `[lt, rt, rb, lb] = [1, 2, 3, 4]`, the background pass traces the
top-right corner with radius `2` centred at `(98, 2)` while the border pass
traces it with radius `1` centred at `(99, 1)` (and so on around the box:
the border pass attaches `lt` to the top-right corner, `lb` to the
bottom-right, `rt` to the bottom-left and `rb` to the top-left, and emits
arcs even for zero radii), so the two passes do not build the same path. -/
theorem C1_border_path_mismatch :
    drawCtxPath 100 50 (.arr 1 2 3 4) ≠ drawBorderPath 100 50 (.arr 1 2 3 4) ∧
    drawCtxPath 100 50 (.arr 1 2 3 4) =
      [.arc 1 1 1 1 (3/2), .lineTo 98 0, .arc 98 2 2 (3/2) 0,
       .lineTo 100 47, .arc 97 47 3 0 (1/2), .lineTo 4 50, .arc 4 46 4 (1/2) 1] ∧
    drawBorderPath 100 50 (.arr 1 2 3 4) =
      [.moveTo 1 0, .lineTo 99 0, .arc 99 1 1 (3/2) 0,
       .lineTo 100 46, .arc 96 46 4 0 (1/2),
       .lineTo 2 50, .arc 2 48 2 (1/2) 1,
       .lineTo 0 3, .arc 3 3 3 1 (3/2)] := by
  refine ⟨by decide, by norm_num [drawCtxPath, normRadius], by norm_num [drawBorderPath, normRadius]⟩

/-- Claim C9, amended: the full preset (`TextGraphics`) leaves the caller's
content untouched; the minimal preset (`rectangle`) with a numeric width
also leaves it untouched, but with `width: 'auto'` and an array content it
reorders the caller's array in place (stable sort by descending length), so
the elements survive only as a multiset. -/
theorem C9_content_after :
    (∀ (c : Option ContentV) (w h : AutoOr ℚ), textGraphicsContentAfter c w h = c) ∧
    (∀ (l : List Str) (w h : AutoOr ℚ),
      ∃ l2, rectangleContentAfter (some (.arr l)) w h = some (.arr l2) ∧ l2.Perm l) ∧
    (∀ (c : Option ContentV) (w h : AutoOr ℚ),
      w ≠ .auto → rectangleContentAfter c w h = c) := by
  refine ⟨fun c w h => rfl, fun l w h => ?_, fun c w h hw => ?_⟩
  · by_cases hw : w = .auto
    · refine ⟨jsSortLenDesc l, by simp [rectangleContentAfter, hw], ?_⟩
      simpa [jsSortLenDesc] using
        List.perm_insertionSort (fun a b : Str => b.length ≤ a.length) l
    · exact ⟨l, by simp [rectangleContentAfter, hw], List.Perm.refl l⟩
  · simp [rectangleContentAfter, hw]

/-- Counterexample for C9 as stated: `rectangle` with `width: 'auto'` and
content `["A", "BB"]` hands the caller back the array reordered to
`["BB", "A"]`. -/
theorem C9_counterexample :
    rectangleContentAfter (some (.arr [[65], [66, 66]])) .auto .auto ≠
      some (.arr [[65], [66, 66]]) ∧
    rectangleContentAfter (some (.arr [[65], [66, 66]])) .auto .auto =
      some (.arr [[66, 66], [65]]) := by
  exact ⟨by decide, by decide⟩

/-- Witness for C9 at concrete inputs: a numeric width leaves the content
alone, and the auto-width sort is a permutation. -/
theorem C9_content_after_witness :
    ((.val 7 : AutoOr ℚ) ≠ .auto ∧
      rectangleContentAfter (some (.arr [[65], [66, 66]])) (.val 7) .auto =
        some (.arr [[65], [66, 66]])) ∧
    (∃ l2, rectangleContentAfter (some (.arr [[65], [66, 66]])) .auto .auto =
        some (.arr l2) ∧ l2.Perm [[65], [66, 66]]) :=
  ⟨⟨by decide, C9_content_after.2.2 _ _ _ (by decide)⟩,
   C9_content_after.2.1 [[65], [66, 66]] .auto .auto⟩

theorem isArrayIndexKey_zero : isArrayIndexKey 0 = true := by
  simp [isArrayIndexKey]

theorem isArrayIndexKey_one : isArrayIndexKey 1 = true := by
  simp [isArrayIndexKey]

theorem isArrayIndexKey_half : isArrayIndexKey (1/2) = false := by
  have hnum : ((1 : ℚ)/2).num = 1 := by norm_num
  have hden : ((1 : ℚ)/2).den = 2 := by norm_num
  simp [isArrayIndexKey, hnum, hden]

/-- Claim C7, amended: `drawCtx` adds exactly one gradient stop per map key
(the stops are a permutation of the map's entries), in `Object.keys`
enumeration order — integer keys first in ascending numeric order, then
non-integer keys in insertion order; when every key is an integer (such as
`{0:"#fff", 1:"#000"}`, which yields exactly the two stops `0` then `1`)
this order is ascending, but it need not be ascending otherwise. -/
theorem C7_gradient_stops :
    (∀ m : List (ℚ × String), (gradStops m).Perm m) ∧
    (∀ m : List (ℚ × String), (∀ p ∈ m, isArrayIndexKey p.1 = true) →
      List.Sorted keyLE (gradStops m)) ∧
    gradStops [(0, "#fff"), (1, "#000")] = [(0, "#fff"), (1, "#000")] := by
  refine ⟨fun m => ?_, fun m h => ?_, ?_⟩
  · exact ((List.perm_insertionSort keyLE _).append_right _).trans
      (List.filter_append_perm (fun p => isArrayIndexKey p.1) m)
  · unfold gradStops jsEnumOrder
    rw [List.filter_eq_self.mpr h,
      List.filter_eq_nil_iff.mpr (fun a ha => by simp [h a ha]), List.append_nil]
    exact List.sorted_insertionSort keyLE m
  · simp only [gradStops, jsEnumOrder, List.filter_cons, List.filter_nil,
      isArrayIndexKey_zero, isArrayIndexKey_one, Bool.not_true, if_true,
      List.insertionSort, List.orderedInsert, keyLE]
    norm_num

/-- Counterexample for C7 as stated: the map written `{0.5:"a", 0:"b",
1:"c"}` enumerates its integer keys `0, 1` before the non-integer key
`0.5`, so the stops are added in the order `0, 1, 0.5` — not ascending. -/
theorem C7_counterexample :
    gradStops [(1/2, "a"), (0, "b"), (1, "c")] = [(0, "b"), (1, "c"), (1/2, "a")] ∧
    ¬ List.Sorted keyLE (gradStops [(1/2, "a"), (0, "b"), (1, "c")]) := by
  have h : gradStops [(1/2, "a"), (0, "b"), (1, "c")] = [(0, "b"), (1, "c"), (1/2, "a")] := by
    simp only [gradStops, jsEnumOrder, List.filter_cons, List.filter_nil,
      isArrayIndexKey_zero, isArrayIndexKey_one, isArrayIndexKey_half,
      Bool.not_true, Bool.not_false, if_true, if_false,
      List.insertionSort, List.orderedInsert, keyLE]
    norm_num
  refine ⟨h, fun hs => ?_⟩
  rw [h] at hs
  have h12 : keyLE (1, "c") (1/2, "a") :=
    (List.sorted_cons.mp (List.sorted_cons.mp hs).2).1 _ (by simp)
  norm_num [keyLE] at h12

/-- Witness for C7 at the all-integer-keyed map `{0:"#fff", 1:"#000"}`. -/
theorem C7_gradient_stops_witness :
    (∀ p ∈ [((0 : ℚ), "#fff"), (1, "#000")], isArrayIndexKey p.1 = true) ∧
    List.Sorted keyLE (gradStops [((0 : ℚ), "#fff"), (1, "#000")]) ∧
    (gradStops [((0 : ℚ), "#fff"), (1, "#000")]).Perm [((0 : ℚ), "#fff"), (1, "#000")] :=
  ⟨by simp [isArrayIndexKey_zero, isArrayIndexKey_one],
   C7_gradient_stops.2.1 _ (by simp [isArrayIndexKey_zero, isArrayIndexKey_one]),
   C7_gradient_stops.1 _⟩

/-- Claim C2: with `width: 'auto'` and at least one (non-empty) line, the
resolved width is the maximal string width over the lines (witnessed by the
chosen widest line) times the font size, plus `letterSpacing * (chosen
line's length - 1)`, plus the left and right padding as inflated by a
non-zero border width (`resolvePadding`). -/
theorem C2_auto_width (o : TextGraphicsOptions) (hw : o.width = .auto)
    (hne : contentLines o.content ≠ []) :
    ∃ chosen ∈ contentLines o.content,
      (∀ l ∈ contentLines o.content, get_string_width l ≤ get_string_width chosen) ∧
      (resolveSize o).1 =
        get_string_width chosen * o.fontStyle.size.getD 12 +
          o.fontStyle.letterSpacing.getD 0 * ((chosen.length : ℚ) - 1) +
          ((resolvePadding (o.fontStyle.padding.getD (.num 0)) (o.borderStyle.width.getD 0)).left +
           (resolvePadding (o.fontStyle.padding.getD (.num 0)) (o.borderStyle.width.getD 0)).right) := by
  refine ⟨maxBy get_string_width (contentLines o.content), maxBy_mem _ _ hne,
    fun l hl => le_maxBy _ _ _ hl, ?_⟩
  simp only [resolveSize, hw, hne, ne_eq, not_false_iff, true_or, and_self, if_true, if_pos]
  ring

/-- Witness for C2 at content `["AB", "文"]` (the two lines tie at string
width `1`; the `reduce` keeps the later line `"文"`), font size `10`,
letter spacing `1`, padding `2` on every side and border width `3`. -/
theorem C2_auto_width_witness :
    contentLines (some (.arr [[65, 66], [25991]])) ≠ [] ∧
    ∃ chosen ∈ contentLines (some (.arr [[65, 66], [25991]])),
      (∀ l ∈ contentLines (some (.arr [[65, 66], [25991]])),
        get_string_width l ≤ get_string_width chosen) ∧
      (resolveSize
        { content := some (.arr [[65, 66], [25991]]),
          borderStyle := { width := some 3 },
          fontStyle := { size := some 10, padding := some (.num 2),
                         letterSpacing := some 1 } }).1 =
        get_string_width chosen * 10 + 1 * ((chosen.length : ℚ) - 1) + (5 + 5) :=
  ⟨by decide,
   by
    have h := C2_auto_width
      { content := some (.arr [[65, 66], [25991]]),
        borderStyle := { width := some 3 },
        fontStyle := { size := some 10, padding := some (.num 2), letterSpacing := some 1 } }
      rfl (by decide)
    obtain ⟨chosen, hmem, hmax, heq⟩ := h
    refine ⟨chosen, hmem, hmax, ?_⟩
    rw [heq]
    norm_num [resolvePadding]⟩

/-- Claim C5: with no content and both dimensions `'auto'`, the resolved
size is exactly `0 × 0`, no painter runs (the trace is empty) and the call
returns normally (`.ok`, never the image-loader's error). -/
theorem C5_no_content {ε : Type} (loadImg : String → Except ε Img)
    (o : TextGraphicsOptions) (hc : o.content = none) (hw : o.width = .auto)
    (hh : o.height = .auto) :
    resolveSize o = (0, 0) ∧ renderTextGraphics loadImg o = .ok (0, 0, []) := by
  have hl : contentLines o.content = [] := by rw [hc]; rfl
  have hs : resolveSize o = (0, 0) := by
    simp [resolveSize, hl, hw, hh]
  exact ⟨hs, by simp [renderTextGraphics, hs]⟩

/-- Witness for C5: the all-defaults options record. -/
theorem C5_no_content_witness :
    resolveSize {} = (0, 0) ∧
    renderTextGraphics (fun _ => (.ok ⟨0, 0⟩ : Except Unit Img)) {} = .ok (0, 0, []) :=
  C5_no_content (fun _ => (.ok ⟨0, 0⟩ : Except Unit Img)) {} rfl rfl rfl

/-- Claim C10: with `height: 'auto'` and at least one (non-empty) line, the
resolved height is `rows * fontSize + topPadding + bottomPadding +
(rows - 1) * rowGap` minus `2` for an even number of rows and `4` for an
odd one; consequently a single line with font size `4` and no padding or
border resolves to height `0`, and the render returns the empty `2 × 0`
surface with no paint operations despite non-empty content. -/
theorem C10_auto_height :
    (∀ o : TextGraphicsOptions, o.height = .auto → contentLines o.content ≠ [] →
      (resolveSize o).2 =
        ((contentLines o.content).length : ℚ) * o.fontStyle.size.getD 12 +
          ((resolvePadding (o.fontStyle.padding.getD (.num 0)) (o.borderStyle.width.getD 0)).top +
           (resolvePadding (o.fontStyle.padding.getD (.num 0)) (o.borderStyle.width.getD 0)).bottom) +
          (((contentLines o.content).length : ℚ) - 1) * o.fontStyle.rowGap.getD 0 -
          (if (contentLines o.content).length % 2 = 0 then 2 else 4)) ∧
    (∀ (ε : Type) (loadImg : String → Except ε Img),
      renderTextGraphics loadImg
        { content := some (.str [65]), fontStyle := { size := some 4 } } = .ok (2, 0, [])) := by
  constructor
  · intro o hh hne
    simp [resolveSize, hh, hne]
  · intro ε loadImg
    norm_num [renderTextGraphics, resolveSize, contentLines, maxBy, get_string_width,
      resolvePadding]

/-- Witness for C10: three rows `["A","B","C"]` at font size `10` with row
gap `2` (odd row count, so the correction is `4`), plus the degenerate
single-line render. -/
theorem C10_auto_height_witness :
    contentLines (some (.arr [[65], [66], [67]])) ≠ [] ∧
    (resolveSize
      { content := some (.arr [[65], [66], [67]]),
        fontStyle := { size := some 10, rowGap := some 2 } }).2 =
      ((contentLines (some (.arr [[65], [66], [67]]))).length : ℚ) * 10 + (0 + 0) +
        (((contentLines (some (.arr [[65], [66], [67]]))).length : ℚ) - 1) * 2 -
        (if (contentLines (some (.arr [[65], [66], [67]]))).length % 2 = 0 then 2 else 4) ∧
    renderTextGraphics (fun _ => (.ok ⟨0, 0⟩ : Except Unit Img))
      { content := some (.str [65]), fontStyle := { size := some 4 } } = .ok (2, 0, []) :=
  ⟨by decide,
   by
    have h := C10_auto_height.1
      { content := some (.arr [[65], [66], [67]]),
        fontStyle := { size := some 10, rowGap := some 2 } } rfl (by decide)
    rw [h]
    norm_num [resolvePadding],
   C10_auto_height.2 Unit _⟩

/-- Claim C3, amended: in the full preset the border pass performs no
paint calls when the border width is `0` (its default) or the border color
is unset; and a spec with an explicit zero-width border whose radius is
unset renders the same surface as the same spec with no border style at
all.  (If the zero-width border carries a non-zero radius the surfaces
differ, because the radius still shapes the background clip — `drawCtx`
receives `borderStyle.radius`; and the minimal preset's border pass is
never skipped at all: see the counterexample.) -/
theorem C3_border_skip :
    (∀ (width height : ℚ) (bs : BorderStyle),
      bs.width.getD 0 = 0 ∨ strTruthy bs.color = false →
      drawBorderOps width height bs = []) ∧
    (∀ (ε : Type) (loadImg : String → Except ε Img) (o : TextGraphicsOptions)
      (c : Option String),
      renderTextGraphics loadImg { o with borderStyle := { color := c, width := some 0 } } =
      renderTextGraphics loadImg { o with borderStyle := {} }) := by
  refine ⟨fun width height bs hbs => ?_, fun ε loadImg o c => rfl⟩
  rcases hbs with h0 | hc
  · simp [drawBorderOps, h0]
  · simp [drawBorderOps, hc]

/-- Counterexample for C3 as stated: first, a zero-width border that
carries `radius: 5` changes the background clip outline (arcs instead of
straight corners), so the rendered surface differs from the same spec with
no border style; second, the minimal preset's border pass is never skipped
— with width `0` it still sets the line width and stroke color and strokes
the path. -/
theorem C3_counterexample :
    (renderTextGraphics (fun _ => (.ok ⟨0, 0⟩ : Except Unit Img))
      { width := .val 10, height := .val 10,
        backgroundStyle := { color := some (.solid "#123") },
        borderStyle := { width := some 0, radius := some (.num 5) } } ≠
    renderTextGraphics (fun _ => (.ok ⟨0, 0⟩ : Except Unit Img))
      { width := .val 10, height := .val 10,
        backgroundStyle := { color := some (.solid "#123") },
        borderStyle := {} }) ∧
    rect_drawBorderOps 10 10 { width := some 0 } ≠ [] := by
  constructor
  · norm_num [renderTextGraphics, resolveSize, contentLines, resolvePadding, drawCtxOps,
      drawBorderOps, drawTextOps, drawCtxPath, normRadius, bgColorTruthy, strTruthy,
      bgFillOps, drawLinesOps, maxBy, get_string_width]
    decide
  · simp [rect_drawBorderOps]

/-- Witness for C3: a zero-width red border is skipped by `drawBorder`, and
a `10 × 10` box with a zero-width, radius-free red border renders exactly
as with no border style. -/
theorem C3_border_skip_witness :
    drawBorderOps 5 5 { color := some "red", width := some 0 } = [] ∧
    renderTextGraphics (fun _ => (.ok ⟨1, 1⟩ : Except Unit Img))
      { width := .val 10, height := .val 10,
        borderStyle := { color := some "red", width := some 0 } } =
    renderTextGraphics (fun _ => (.ok ⟨1, 1⟩ : Except Unit Img))
      { width := .val 10, height := .val 10, borderStyle := {} } :=
  ⟨C3_border_skip.1 5 5 { color := some "red", width := some 0 } (Or.inl rfl),
   C3_border_skip.2 Unit (fun _ => (.ok ⟨1, 1⟩ : Except Unit Img))
     { width := .val 10, height := .val 10 } (some "red")⟩

/-- Claim C8: when the background names an image and loading it fails, the
whole render call fails with that same error (the rejection of `loadImage`
propagates through the awaited `drawCtx` to the caller) — no surface, not
even a partial one, is produced. -/
theorem C8_image_load_error {ε : Type} (loadImg : String → Except ε Img) (e : ε)
    (o : TextGraphicsOptions) (src : String)
    (himg : o.backgroundStyle.image = some src) (hsrc : src ≠ "")
    (herr : loadImg src = .error e)
    (hw : (resolveSize o).1 ≠ 0) (hh : (resolveSize o).2 ≠ 0) :
    renderTextGraphics loadImg o = .error e := by
  have hctx : drawCtxOps loadImg (resolveSize o).1 (resolveSize o).2
      (o.borderStyle.radius.getD (.num 0)) o.backgroundStyle = .error e := by
    simp [drawCtxOps, himg, strTruthy, hsrc, herr]
  simp [renderTextGraphics, hw, hh, hctx]

/-- Witness for C8: a `5 × 5` box whose background image `"u"` fails to
load renders to the loader's error. -/
theorem C8_image_load_error_witness :
    ((fun _ => (.error () : Except Unit Img)) "u" = .error () ∧
      (resolveSize
        { width := .val 5, height := .val 5,
          backgroundStyle := { image := some "u" } }).1 ≠ 0) ∧
    renderTextGraphics (fun _ => (.error () : Except Unit Img))
      { width := .val 5, height := .val 5,
        backgroundStyle := { image := some "u" } } = .error () :=
  ⟨⟨rfl, by norm_num [resolveSize, contentLines]⟩,
   C8_image_load_error (fun _ => (.error () : Except Unit Img)) ()
     { width := .val 5, height := .val 5, backgroundStyle := { image := some "u" } }
     "u" rfl (by decide) rfl
     (by norm_num [resolveSize, contentLines])
     (by norm_num [resolveSize, contentLines])⟩
